import Mathlib

/-!
Verification of the coordination core of a terminal widget-inspector
(`flutter-tui-tools`): the widget-tree view-model (`src/app_state.rs`),
the extension-response unwrapping of the VM-service client
(`src/vm_service.rs`), the request/response driver loop of the RPC
transport (`src/vm_service.rs`), the stdout URI scanner of the child
process driver (`src/flutter_daemon.rs`), and the debounced auto-reload
pump of the main loop (`src/main.rs`).

Rust `HashSet<String>` is modelled as `Finset String`; Rust `usize` as
`Nat` (with saturating subtraction written as truncated `Nat`
subtraction, which agrees); `u64` counters as `Nat` reduced mod `2^64`
at each increment; `serde_json::Value` as the inductive `Json`.
-/

namespace FlutterTui

/-! ## Data model: `RemoteDiagnosticsNode` (src/vm_service.rs, lines 33-50)

The eight scalar fields are grouped in `NodeCore`; the two recursive
fields (`children`, `properties`) live in the inductive wrapper.  Field
names follow the Rust struct. -/

structure NodeCore where
  description : Option String
  node_type : Option String
  name : Option String
  style : Option String
  has_children : Option Bool
  widget_runtime_type : Option String
  object_id : Option String
  value_id : Option String
deriving DecidableEq, Repr

def NodeCore.empty : NodeCore :=
  ⟨none, none, none, none, none, none, none, none⟩

inductive RemoteDiagnosticsNode where
  | mk (core : NodeCore)
       (children : Option (List RemoteDiagnosticsNode))
       (properties : Option (List RemoteDiagnosticsNode))
deriving Repr

def RemoteDiagnosticsNode.core : RemoteDiagnosticsNode → NodeCore
  | .mk c _ _ => c

def RemoteDiagnosticsNode.children :
    RemoteDiagnosticsNode → Option (List RemoteDiagnosticsNode)
  | .mk _ ch _ => ch

def RemoteDiagnosticsNode.properties :
    RemoteDiagnosticsNode → Option (List RemoteDiagnosticsNode)
  | .mk _ _ p => p

/-- `AppState::get_node_id` (src/app_state.rs, lines 122-126):
`value_id` preferred, then `object_id`. -/
def getNodeId (n : RemoteDiagnosticsNode) : Option String :=
  match n.core.value_id with
  | some v => some v
  | none => n.core.object_id

/-! ## Visibility counting (src/app_state.rs, lines 259-280)

`count_visible` counts a node and, when the node has an identity that is
in the expansion set, recurses into its children. -/

mutual

def countVisible (s : Finset String) (n : RemoteDiagnosticsNode) : Nat :=
  match n with
  | .mk core ch p =>
    1 + (match getNodeId (.mk core ch p), ch with
         | some id, some cs => if id ∈ s then countVisibleList s cs else 0
         | _, _ => 0)

def countVisibleList (s : Finset String) (l : List RemoteDiagnosticsNode) : Nat :=
  match l with
  | [] => 0
  | c :: rest => countVisible s c + countVisibleList s rest

end

theorem countVisible_mk (s : Finset String) (core : NodeCore)
    (ch p : Option (List RemoteDiagnosticsNode)) :
    countVisible s (.mk core ch p) =
      1 + (match getNodeId (.mk core ch p), ch with
           | some id, some cs => if id ∈ s then countVisibleList s cs else 0
           | _, _ => 0) := by
  rw [countVisible.eq_def]

/-! ## Index-based node lookup (src/app_state.rs, lines 184-215)

`find_node_at_index` walks the visible pre-order carrying a mutable
counter; the counter is threaded explicitly here, and each call returns
the hit (if any) together with the updated counter. -/

mutual

def findNodeAtIndex (sel : Nat) (s : Finset String)
    (n : RemoteDiagnosticsNode) (cur : Nat) :
    Option RemoteDiagnosticsNode × Nat :=
  match n with
  | .mk core ch p =>
    if cur = sel then (some (.mk core ch p), cur)
    else
      let cur1 := cur + 1
      match getNodeId (.mk core ch p), ch with
      | some id, some cs =>
        if id ∈ s then findNodeAtIndexList sel s cs cur1 else (none, cur1)
      | _, _ => (none, cur1)

def findNodeAtIndexList (sel : Nat) (s : Finset String)
    (l : List RemoteDiagnosticsNode) (cur : Nat) :
    Option RemoteDiagnosticsNode × Nat :=
  match l with
  | [] => (none, cur)
  | c :: rest =>
    match findNodeAtIndex sel s c cur with
    | (some found, cur1) => (some found, cur1)
    | (none, cur1) => findNodeAtIndexList sel s rest cur1

end

/-! ## Path lookup (src/app_state.rs, lines 559-599)

`find_path_to_node` pushes the id of every node it descends through and
pops it again on failure; the mutable `path` vector is threaded
explicitly. -/

mutual

def findPathToNode (n : RemoteDiagnosticsNode) (targetId : String)
    (path : List String) : Bool × List String :=
  match n with
  | .mk core ch p =>
    match getNodeId (.mk core ch p) with
    | none => (false, path)
    | some id =>
      if id = targetId then (true, path)
      else
        let path1 := path ++ [id]
        match ch with
        | some cs =>
          match findPathToNodeList cs targetId path1 with
          | (true, path2) => (true, path2)
          | (false, path2) => (false, path2.dropLast)
        | none => (false, path1.dropLast)

def findPathToNodeList (l : List RemoteDiagnosticsNode) (targetId : String)
    (path : List String) : Bool × List String :=
  match l with
  | [] => (false, path)
  | c :: rest =>
    match findPathToNode c targetId path with
    | (true, path1) => (true, path1)
    | (false, path1) => findPathToNodeList rest targetId path1

end

/-! ## Visible-index lookup by id (src/app_state.rs, lines 601-635)

`find_visible_index_recursive`: note that the counter is only advanced
for nodes that have an identity, and children are only entered when the
node's identity is in the expansion set. -/

mutual

def findVisibleIndex (s : Finset String) (targetId : String)
    (n : RemoteDiagnosticsNode) (cur : Nat) : Option Nat × Nat :=
  match n with
  | .mk core ch p =>
    match getNodeId (.mk core ch p) with
    | none => (none, cur)
    | some id =>
      if id = targetId then (some cur, cur)
      else
        let cur1 := cur + 1
        if id ∈ s then
          match ch with
          | some cs => findVisibleIndexList s targetId cs cur1
          | none => (none, cur1)
        else (none, cur1)

def findVisibleIndexList (s : Finset String) (targetId : String)
    (l : List RemoteDiagnosticsNode) (cur : Nat) : Option Nat × Nat :=
  match l with
  | [] => (none, cur)
  | c :: rest =>
    match findVisibleIndex s targetId c cur with
    | (some i, cur1) => (some i, cur1)
    | (none, cur1) => findVisibleIndexList s targetId rest cur1

end

/-! ## Smart expansion id collection (src/app_state.rs, lines 154-170)

`collect_smart_expand_ids(node, ids, depth_limit)`: push the node's own
identity; while `depth_limit > 0` and the node has exactly one child,
continue into that child with `depth_limit - 1`. -/

def collectSmartExpandIds : RemoteDiagnosticsNode → Nat → List String
  | n, 0 =>
    (match getNodeId n with
     | some id => [id]
     | none => [])
  | n, d + 1 =>
    match getNodeId n with
    | none => []
    | some id =>
      id :: (match n.children with
             | some [c] => collectSmartExpandIds c d
             | _ => [])

/-! ## The view-model state (src/app_state.rs, lines 13-42, restricted to
the fields the widget-tree claims touch). -/

structure AppState where
  root_node : Option RemoteDiagnosticsNode
  selected_node_details : Option RemoteDiagnosticsNode
  selected_index : Nat
  expanded_ids : Finset String
  tree_scroll_offset : Nat
  tree_horizontal_scroll : Nat

/-- `AppState::visible_count` (src/app_state.rs, lines 259-267). -/
def AppState.visible_count (st : AppState) : Nat :=
  match st.root_node with
  | some root => countVisible st.expanded_ids root
  | none => 0

/-- `AppState::get_selected_node` (src/app_state.rs, lines 185-191). -/
def AppState.get_selected_node (st : AppState) : Option RemoteDiagnosticsNode :=
  match st.root_node with
  | some root => (findNodeAtIndex st.selected_index st.expanded_ids root 0).1
  | none => none

/-- `AppState::toggle_expand` (src/app_state.rs, lines 128-138). -/
def AppState.toggle_expand (st : AppState) : AppState :=
  match st.get_selected_node with
  | some node =>
    match getNodeId node with
    | some id =>
      if id ∈ st.expanded_ids then
        { st with expanded_ids := st.expanded_ids.erase id }
      else
        { st with expanded_ids := insert id st.expanded_ids }
    | none => st
  | none => st

/-- `AppState::expand_selected` (src/app_state.rs, lines 140-152). -/
def AppState.expand_selected (st : AppState) : AppState :=
  match st.get_selected_node with
  | some node =>
    { st with
      expanded_ids :=
        (collectSmartExpandIds node 5).foldl (fun s i => insert i s)
          st.expanded_ids }
  | none => st

/-- `AppState::collapse_selected` (src/app_state.rs, lines 172-182):
returns whether a collapse happened, together with the new state. -/
def AppState.collapse_selected (st : AppState) : Bool × AppState :=
  match st.get_selected_node with
  | some node =>
    match getNodeId node with
    | some id =>
      if id ∈ st.expanded_ids then
        (true, { st with expanded_ids := st.expanded_ids.erase id })
      else (false, st)
    | none => (false, st)
  | none => (false, st)

/-- `AppState::move_selection` (src/app_state.rs, lines 282-298).
`ensure_selection_visible` (lines 300-309) has an empty body and is
omitted. -/
def AppState.move_selection (st : AppState) (delta : Int) : AppState :=
  let count := st.visible_count
  if count = 0 then st
  else
    let newIndex : Int := (st.selected_index : Int) + delta
    let st1 :=
      if newIndex < 0 then { st with selected_index := 0 }
      else if newIndex ≥ (count : Int) then { st with selected_index := count - 1 }
      else { st with selected_index := newIndex.toNat }
    { st1 with selected_node_details := none }

/-- `AppState::expand_path_to_node` (src/app_state.rs, lines 559-568). -/
def AppState.expand_path_to_node (st : AppState) (targetId : String) : AppState :=
  match st.root_node with
  | some root =>
    match findPathToNode root targetId [] with
    | (true, path) =>
      { st with expanded_ids := path.foldl (fun s i => insert i s) st.expanded_ids }
    | (false, _) => st
  | none => st

/-- `AppState::get_visible_index_of_id` (src/app_state.rs, lines 601-607). -/
def AppState.get_visible_index_of_id (st : AppState) (targetId : String) :
    Option Nat :=
  match st.root_node with
  | some root => (findVisibleIndex st.expanded_ids targetId root 0).1
  | none => none

/-- `AppState::ensure_selection_visible_after_restore`
(src/app_state.rs, lines 102-120). -/
def AppState.ensure_selection_visible_after_restore (st : AppState) : AppState :=
  if st.selected_index < st.tree_scroll_offset then
    { st with tree_scroll_offset := st.selected_index }
  else if st.selected_index ≥ 3 then
    { st with tree_scroll_offset := st.selected_index - 3 }
  else
    { st with tree_scroll_offset := 0 }

/-- `AppState::set_root_node` (src/app_state.rs, lines 68-100). -/
def AppState.set_root_node (st : AppState) (node : RemoteDiagnosticsNode) :
    AppState :=
  let selectedId := st.get_selected_node.bind getNodeId
  let expanded1 :=
    match getNodeId node with
    | some id => insert id st.expanded_ids
    | none => st.expanded_ids
  let st1 : AppState :=
    { st with expanded_ids := expanded1, root_node := some node }
  match selectedId with
  | some id =>
    let st2 := st1.expand_path_to_node id
    match st2.get_visible_index_of_id id with
    | some index =>
      AppState.ensure_selection_visible_after_restore
        { st2 with selected_index := index }
    | none =>
      { st2 with selected_index := 0, tree_scroll_offset := 0,
                 selected_node_details := none }
  | none =>
    { st1 with selected_index := 0, tree_scroll_offset := 0,
               selected_node_details := none }

/-- `AppState::ensure_horizontal_visibility` (src/app_state.rs, lines
389-420), as a function of the current horizontal scroll, the selected
node's depth and the viewport width.  `usize::saturating_sub` and the
unchecked `usize` subtraction on the last branch are both written as
truncated `Nat` subtraction; `hscrollSubtrahendsSafe` below shows the
unchecked one never truncates. -/
def ensure_horizontal_visibility (hscroll depth viewportWidth : Nat) : Nat :=
  let start_visual_pos := depth * 2
  let padding := 2
  if start_visual_pos < hscroll + padding then
    start_visual_pos - padding
  else if start_visual_pos > hscroll + (viewportWidth - padding) then
    start_visual_pos + padding + 10 - viewportWidth
  else hscroll

/-- The condition claimed (spec §9, item 2) to be reachable: the last
branch of `ensure_horizontal_visibility` is taken and the subtraction
`start + padding + 10 - viewport_width` underflows. -/
def hscrollUnderflow (hscroll depth viewportWidth : Nat) : Bool :=
  let start_visual_pos := depth * 2
  let padding := 2
  decide (¬ start_visual_pos < hscroll + padding) &&
  decide (start_visual_pos > hscroll + (viewportWidth - padding)) &&
  decide (start_visual_pos + padding + 10 < viewportWidth)

/-! ## JSON values (`serde_json::Value`)

Object entries are an association list; `serde_json` maps have unique
keys (duplicates are collapsed during parsing), so first-match lookup
below coincides with map lookup. -/

inductive Json where
  | null
  | bool (b : Bool)
  | num (n : Int)
  | str (s : String)
  | arr (elements : List Json)
  | obj (entries : List (String × Json))

def lookupEntry (key : String) : List (String × Json) → Option Json
  | [] => none
  | (k, v) :: rest => if k = key then some v else lookupEntry key rest

/-- `Value::get(key)`: `Some` only on objects with the key present. -/
def jsonGet (j : Json) (key : String) : Option Json :=
  match j with
  | .obj entries => lookupEntry key entries
  | _ => none

/-- `Value::as_str`. -/
def Json.asStr : Json → Option String
  | .str s => some s
  | _ => none

/-! ## serde decoding of `RemoteDiagnosticsNode` (src/vm_service.rs,
lines 33-50)

The derived `Deserialize` visits the map entries in order, filling the
matching field (renames: `type`, `hasChildren`, `widgetRuntimeType`,
`objectId`, `valueId`); unknown keys are ignored; an `Option` field
accepts `null` as `None` and errors on a wrong type; a missing field is
`None`. -/

def decodeOptString : Json → Except String (Option String)
  | .null => .ok none
  | .str s => .ok (some s)
  | _ => .error "invalid type: expected a string"

def decodeOptBool : Json → Except String (Option Bool)
  | .null => .ok none
  | .bool b => .ok (some b)
  | _ => .error "invalid type: expected a boolean"

mutual

def decodeNode : Json → Except String RemoteDiagnosticsNode
  | .obj entries => decodeEntries entries NodeCore.empty none none
  | _ => .error "invalid type: expected an object"

def decodeEntries (entries : List (String × Json)) (core : NodeCore)
    (children properties : Option (List RemoteDiagnosticsNode)) :
    Except String RemoteDiagnosticsNode :=
  match entries with
  | [] => .ok (.mk core children properties)
  | (k, v) :: rest =>
    if k = "description" then
      (decodeOptString v).bind fun d =>
        decodeEntries rest { core with description := d } children properties
    else if k = "type" then
      (decodeOptString v).bind fun t =>
        decodeEntries rest { core with node_type := t } children properties
    else if k = "name" then
      (decodeOptString v).bind fun nm =>
        decodeEntries rest { core with name := nm } children properties
    else if k = "style" then
      (decodeOptString v).bind fun sty =>
        decodeEntries rest { core with style := sty } children properties
    else if k = "hasChildren" then
      (decodeOptBool v).bind fun hc =>
        decodeEntries rest { core with has_children := hc } children properties
    else if k = "children" then
      (decodeOptNodeList v).bind fun c =>
        decodeEntries rest core c properties
    else if k = "widgetRuntimeType" then
      (decodeOptString v).bind fun w =>
        decodeEntries rest { core with widget_runtime_type := w } children
          properties
    else if k = "objectId" then
      (decodeOptString v).bind fun o =>
        decodeEntries rest { core with object_id := o } children properties
    else if k = "valueId" then
      (decodeOptString v).bind fun vi =>
        decodeEntries rest { core with value_id := vi } children properties
    else if k = "properties" then
      (decodeOptNodeList v).bind fun pr =>
        decodeEntries rest core children pr
    else decodeEntries rest core children properties

def decodeOptNodeList : Json → Except String (Option (List RemoteDiagnosticsNode))
  | .null => .ok none
  | .arr xs => (decodeNodeList xs).map some
  | _ => .error "invalid type: expected a sequence"

def decodeNodeList : List Json → Except String (List RemoteDiagnosticsNode)
  | [] => .ok []
  | x :: xs =>
    (decodeNode x).bind fun n =>
      (decodeNodeList xs).bind fun ns => .ok (n :: ns)

end

/-- The extension-response unwrapping shared by
`get_root_widget_summary_tree` (src/vm_service.rs, lines 232-236) and
`get_details_subtree` (lines 260-264): when the `type` field is the
string `"_extensionType"`, decode from `result` if present (falling
back to the whole response); otherwise decode from the response. -/
def selectNodeJson (result : Json) : Json :=
  if (jsonGet result "type").bind Json.asStr = some "_extensionType" then
    (jsonGet result "result").getD result
  else result

/-- Response decoding of the two inspector extension calls. -/
def decodeExtensionResponse (result : Json) :
    Except String RemoteDiagnosticsNode :=
  decodeNode (selectNodeJson result)

/-! ## The RPC transport driver loop (src/vm_service.rs, lines 89-169)

One iteration of the `tokio::select!` loop either takes a request from
the channel (incrementing the `u64` request id, registering the oneshot
sender in `pending_requests`, and — on a failed socket write — removing
it again), or takes an inbound text frame (a frame with a numeric `id`
is routed to the pending entry for that id, which is removed).
`pending` holds the ids with a live oneshot sender, as a duplicate-free
list mirroring the `HashMap` key set; `assigned` and `delivered` record
the observable traces of assigned request ids and of response
deliveries. -/

def U64MOD : Nat := 18446744073709551616

inductive DriverInput where
  | request (sendOk : Bool)
  | frameResponse (id : Nat)
  | frameOther
deriving DecidableEq, Repr

structure DriverState where
  requestId : Nat
  pending : List Nat
  assigned : List Nat
  delivered : List Nat
deriving DecidableEq, Repr

def DriverState.init : DriverState := ⟨0, [], [], []⟩

def driverStep (s : DriverState) : DriverInput → DriverState
  | .request sendOk =>
    let rid := (s.requestId + 1) % U64MOD
    let p1 := rid :: s.pending.erase rid
    { requestId := rid
      pending := if sendOk then p1 else p1.erase rid
      assigned := s.assigned ++ [rid]
      delivered := s.delivered }
  | .frameResponse id =>
    if id ∈ s.pending then
      { s with pending := s.pending.erase id, delivered := s.delivered ++ [id] }
    else s
  | .frameOther => s

def driverRun (ins : List DriverInput) : DriverState :=
  ins.foldl driverStep DriverState.init

/-- Number of `rx_request.recv()` arms taken in a trace. -/
def requestCount (ins : List DriverInput) : Nat :=
  ins.countP fun i => match i with
  | .request _ => true
  | _ => false

/-! ## The daemon stdout scanner (src/flutter_daemon.rs, lines 65-99)

Every stdout line is trimmed; a non-empty line is matched against the
regex `available at: (http://[\d\.:]+/[^/]+/?)`; on a match the capture
group has `http://` replaced by `ws://` and the result is sent on the
URI channel.  The regex is embedded as a direct matcher: literal
`available at: `, then `http://`, then a maximal nonempty run of
`[0-9.:]` that must be followed by `/`, then a maximal nonempty run of
non-`/`, then an optional `/` — for this pattern greedy maximal-run
matching coincides with the regex crate's leftmost-first semantics,
since a shorter run of `[\d.:]` is necessarily followed by another
`[\d.:]` character, never by the required `/`. -/

def dropLit : List Char → List Char → Option (List Char)
  | [], l => some l
  | _ :: _, [] => none
  | p :: ps, c :: cs => if p = c then dropLit ps cs else none

def isUriHostChar (c : Char) : Bool :=
  c.isDigit || c = '.' || c = ':'

/-- Match the capture group `(http://[\d\.:]+/[^/]+/?)` at the start of
`l`, returning the captured characters. -/
def matchUriAt (l : List Char) : Option (List Char) :=
  match dropLit "http://".toList l with
  | none => none
  | some rest =>
    let host := rest.takeWhile isUriHostChar
    let rest1 := rest.dropWhile isUriHostChar
    if host.isEmpty then none
    else
      match rest1 with
      | '/' :: rest2 =>
        let seg := rest2.takeWhile (fun c => ¬ c = '/')
        let rest3 := rest2.dropWhile (fun c => ¬ c = '/')
        if seg.isEmpty then none
        else
          let tailSlash : List Char :=
            match rest3 with
            | '/' :: _ => ['/']
            | _ => []
          some ("http://".toList ++ host ++ '/' :: seg ++ tailSlash)
      | _ => none

/-- Leftmost match of `available at: (http://[\d\.:]+/[^/]+/?)`. -/
def captureUriList : List Char → Option (List Char)
  | [] =>
    match dropLit "available at: ".toList [] with
    | some rest => matchUriAt rest
    | none => none
  | c :: cs =>
    match dropLit "available at: ".toList (c :: cs) with
    | some rest =>
      match matchUriAt rest with
      | some cap => some cap
      | none => captureUriList cs
    | none => captureUriList cs

theorem dropLit_length (p : List Char) :
    ∀ l r, dropLit p l = some r → r.length + p.length = l.length := by
  induction p with
  | nil => intro l r h; simp [dropLit] at h; simp [h]
  | cons x xs ih =>
    intro l r h
    cases l with
    | nil => simp [dropLit] at h
    | cons c cs =>
      simp [dropLit] at h
      obtain ⟨hx, hd⟩ := h
      have := ih cs r hd
      simp [List.length_cons]
      omega

/-- `str::replace(pattern, replacement)`: left-to-right, non-overlapping
replacement of every occurrence. -/
def replaceFromList (pat rep : List Char) (hp : pat ≠ []) :
    List Char → List Char
  | [] => []
  | c :: cs =>
    match h : dropLit pat (c :: cs) with
    | some rest => rep ++ replaceFromList pat rep hp rest
    | none => c :: replaceFromList pat rep hp cs
termination_by l => l.length
decreasing_by
  all_goals
    first
    | (have hlen := dropLit_length pat (c :: cs) rest h
       cases pat with
       | nil => exact absurd rfl hp
       | cons x xs => simp [List.length_cons] at hlen ⊢; omega)
    | simp [List.length_cons]

def trimList (l : List Char) : List Char :=
  ((l.dropWhile Char.isWhitespace).reverse.dropWhile Char.isWhitespace).reverse

/-- Processing of one stdout line by the daemon loop: trim, skip empty,
scan with the regex, rewrite `http://` to `ws://`, send.  Returns the
string sent on the URI channel, if any. -/
def daemonStepLine (line : String) : Option String :=
  let trimmed := trimList line.toList
  if trimmed.isEmpty then none
  else
    match captureUriList trimmed with
    | some cap =>
      some (String.mk (replaceFromList "http://".toList "ws://".toList (by simp) cap))
    | none => none

/-- The full sequence of URI-channel sends produced by a sequence of
stdout lines: the loop has no "already published" flag, so every
matching line produces a send. -/
def daemonRun (lines : List String) : List String :=
  lines.filterMap daemonStepLine

/-- The orchestrator (src/main.rs, lines 142-143) performs a single
`rx_uri.recv().await`, so it obtains the first queued send, if any. -/
def orchestratorReceivedUri (lines : List String) : Option String :=
  (daemonRun lines).head?

/-! ## The debounced auto-reload pump (src/main.rs, lines 290, 335-351)

One main-loop iteration first drains the watcher channel (a pulse
re-arms `debounce_deadline := now + 500 ms`), then, if the deadline has
passed, disarms it and — when `auto_reload` is on — sends `"r"` on the
child-command channel.  Iterations are modelled at millisecond
granularity: tick `t` runs one iteration at time `t`; the pending
file-change pulses are a time-sorted queue consumed at their tick. -/

def dbStep (autoReload : Bool) (deadline : Option Nat) (t : Nat)
    (pulse : Bool) : Option Nat × Option (Nat × String) :=
  let d1 := if pulse then some (t + 500) else deadline
  match d1 with
  | some d => if d ≤ t then (none, if autoReload then some (t, "r") else none)
              else (d1, none)
  | none => (none, none)

def dbRunAux (autoReload : Bool) (deadline : Option Nat) (t : Nat) :
    List Nat → Nat → Option Nat × List (Nat × String)
  | _, 0 => (deadline, [])
  | ps, fuel + 1 =>
    let (isPulse, ps1) :=
      match ps with
      | p :: rest => if p = t then (true, rest) else (false, ps)
      | [] => (false, ([] : List Nat))
    let (d1, fired) := dbStep autoReload deadline t isPulse
    let (d2, fs) := dbRunAux autoReload d1 (t + 1) ps1 fuel
    (d2, fired.toList ++ fs)

/-- Run the main loop from start (no deadline armed) for `ticks`
iterations, with file-change pulses at the times listed in `ps`. -/
def dbRun (autoReload : Bool) (ps : List Nat) (ticks : Nat) :
    Option Nat × List (Nat × String) :=
  dbRunAux autoReload none 0 ps ticks

/-! ## Concrete fixtures used by witnesses and counterexamples -/

/-- A node with only a `value_id` and a child list. -/
def idNode (vid : String) (cs : List RemoteDiagnosticsNode) :
    RemoteDiagnosticsNode :=
  .mk { NodeCore.empty with value_id := some vid } (some cs) none

/-- A childless node with only a `value_id`. -/
def idLeaf (vid : String) : RemoteDiagnosticsNode :=
  .mk { NodeCore.empty with value_id := some vid } none none

/-- A node with no identity at all (no `value_id`, no `object_id`). -/
def anonNode (cs : List RemoteDiagnosticsNode) : RemoteDiagnosticsNode :=
  .mk NodeCore.empty (some cs) none

def mkState (root : Option RemoteDiagnosticsNode) (sel : Nat)
    (expanded : Finset String) : AppState :=
  { root_node := root, selected_node_details := none, selected_index := sel,
    expanded_ids := expanded, tree_scroll_offset := 0,
    tree_horizontal_scroll := 0 }

/-! ## C6: move_selection clamps -/

/-- C6: for every tree state and every integer delta, `move_selection`
clamps the new selection into `[0, visible_count)`: the result equals
`min (max (selected_index + delta) 0) (visible_count - 1)`, the cached
node details are cleared, and the visible count is unchanged, so
`selected_index < visible_count` holds afterwards; when
`visible_count = 0` the call is a no-op (so `selected_index` stays 0
when it was 0). -/
theorem move_selection_eq (st : AppState) (delta : Int) :
    st.move_selection delta =
      if st.visible_count = 0 then st
      else
        { st with
          selected_index :=
            (min (max ((st.selected_index : Int) + delta) 0)
              ((st.visible_count : Int) - 1)).toNat,
          selected_node_details := none } := by
  by_cases h0 : st.visible_count = 0
  · simp [AppState.move_selection, h0]
  · simp only [AppState.move_selection, h0, if_false]
    by_cases hlt : (st.selected_index : Int) + delta < 0
    · rw [if_pos hlt]
      congr 1
      simp only []
      omega
    · rw [if_neg hlt]
      by_cases hge : (st.selected_index : Int) + delta ≥ (st.visible_count : Int)
      · rw [if_pos hge]
        congr 1
        simp only []
        omega
      · rw [if_neg hge]
        congr 1
        simp only []
        omega

theorem move_selection_clamps (st : AppState) (delta : Int) :
    (st.visible_count = 0 → st.move_selection delta = st) ∧
    (0 < st.visible_count →
      (st.move_selection delta).selected_index =
        (min (max ((st.selected_index : Int) + delta) 0)
          ((st.visible_count : Int) - 1)).toNat ∧
      (st.move_selection delta).selected_node_details = none ∧
      (st.move_selection delta).visible_count = st.visible_count ∧
      (st.move_selection delta).selected_index < st.visible_count) := by
  have heq := move_selection_eq st delta
  constructor
  · intro h
    rw [heq, if_pos h]
  · intro h
    have h0 : ¬ st.visible_count = 0 := by omega
    rw [heq, if_neg h0]
    refine ⟨?_, ?_, ?_, ?_⟩
    · simp only []
    · simp only []
    · simp [AppState.visible_count]
    · simp only []
      omega

def stC6 : AppState := mkState (some (idNode "r" [idLeaf "x"])) 0 {"r"}

/-- Witness for C6 at a concrete two-node tree and `delta = 5`. -/
theorem move_selection_clamps_witness :
    0 < stC6.visible_count ∧ (stC6.move_selection 5).selected_index = 1 := by
  have hcount : stC6.visible_count = 2 := by
    simp [AppState.visible_count, stC6, mkState, countVisible, countVisibleList,
      idNode, idLeaf, getNodeId, RemoteDiagnosticsNode.core, NodeCore.empty]
  have h : 0 < stC6.visible_count := by omega
  have := ((move_selection_clamps stC6 5).2 h).1
  refine ⟨h, ?_⟩
  rw [this, hcount]
  simp [stC6, mkState]

/-! ## C9: the horizontal auto-scroll subtraction -/

/-- C9 counterexample to the claim as stated: there is no combination of
horizontal scroll, selected-node depth and viewport width for which the
final branch of `ensure_horizontal_visibility` is taken and its
subtraction `start + padding + 10 - viewport_width` underflows: the
branch guard forces `start + 12 > viewport_width`. -/
theorem hscrollUnderflow_unsat :
    ¬ ∃ hscroll depth viewportWidth : Nat,
        hscrollUnderflow hscroll depth viewportWidth = true := by
  rintro ⟨hscroll, depth, w, hw⟩
  simp only [hscrollUnderflow, Bool.and_eq_true, decide_eq_true_eq] at hw
  omega

/-- C9 amended: whenever the final branch of
`ensure_horizontal_visibility` is reached, `viewport_width` is at most
`start + padding + 10`, so the unchecked `usize` subtraction on that
branch cannot underflow and no clamp is needed; the branch then yields
exactly `start + padding + 10 - viewport_width`. -/
theorem hscroll_no_underflow (hscroll depth viewportWidth : Nat)
    (h1 : ¬ depth * 2 < hscroll + 2)
    (h2 : depth * 2 > hscroll + (viewportWidth - 2)) :
    viewportWidth ≤ depth * 2 + 2 + 10 ∧
    ensure_horizontal_visibility hscroll depth viewportWidth =
      depth * 2 + 2 + 10 - viewportWidth := by
  constructor
  · omega
  · simp only [ensure_horizontal_visibility, h1, if_false, h2, if_true]

/-- Witness for the amended C9 at `hscroll = 0`, `depth = 30`,
`viewport_width = 50`. -/
theorem hscroll_no_underflow_witness :
    (¬ 30 * 2 < 0 + 2) ∧ (30 * 2 > 0 + (50 - 2)) ∧
    ensure_horizontal_visibility 0 30 50 = 22 := by
  refine ⟨by omega, by omega, ?_⟩
  exact (hscroll_no_underflow 0 30 50 (by omega) (by omega)).2

/-! ## C7: smart expansion on a linear six-node chain -/

def cnF : RemoteDiagnosticsNode := idLeaf "F"
def cnE : RemoteDiagnosticsNode := idNode "E" [cnF]
def cnD : RemoteDiagnosticsNode := idNode "D" [cnE]
def cnC : RemoteDiagnosticsNode := idNode "C" [cnD]
def cnB : RemoteDiagnosticsNode := idNode "B" [cnC]
def cnA : RemoteDiagnosticsNode := idNode "A" [cnB]

/-- The chain A→B→C→D→E→F with A selected and everything collapsed. -/
def stC7 : AppState := mkState (some cnA) 0 ∅

/-- C7 counterexample: contrary to the claim, `expand_selected` on the
six-node chain also inserts the identity of `F` into the expansion set —
`collect_smart_expand_ids` pushes the identity of the node it reaches
when `depth_limit` hits 0 before checking the limit. -/
theorem expand_selected_chain_inserts_F :
    "F" ∈ (stC7.expand_selected).expanded_ids := by
  simp [AppState.expand_selected, AppState.get_selected_node, stC7, mkState,
    findNodeAtIndex, collectSmartExpandIds, cnA, cnB, cnC, cnD, cnE, cnF,
    idNode, idLeaf, getNodeId, RemoteDiagnosticsNode.children,
    RemoteDiagnosticsNode.core, NodeCore.empty]

/-- C7 amended: on the chain A→B→C→D→E→F with A selected and collapsed,
`expand_selected()` places all of A, B, C, D, E and F into the expansion
set (the depth-5 recursion still pushes the node reached at depth 0),
and the visible count afterwards is 6. -/
theorem expand_selected_chain :
    (stC7.expand_selected).expanded_ids = {"A", "B", "C", "D", "E", "F"} ∧
    (stC7.expand_selected).visible_count = 6 := by
  have hexp : (stC7.expand_selected).expanded_ids =
      {"A", "B", "C", "D", "E", "F"} := by
    simp [AppState.expand_selected, AppState.get_selected_node, stC7, mkState,
      findNodeAtIndex, collectSmartExpandIds, cnA, cnB, cnC, cnD, cnE, cnF,
      idNode, idLeaf, getNodeId, RemoteDiagnosticsNode.children,
      RemoteDiagnosticsNode.core, NodeCore.empty]
    decide
  refine ⟨hexp, ?_⟩
  have hroot : (stC7.expand_selected).root_node = some cnA := by
    simp [AppState.expand_selected, AppState.get_selected_node, stC7, mkState,
      findNodeAtIndex, cnA, idNode, getNodeId, RemoteDiagnosticsNode.core,
      NodeCore.empty]
  simp only [AppState.visible_count, hroot, hexp]
  simp [countVisible, countVisibleList, cnA, cnB, cnC, cnD, cnE, cnF,
    idNode, idLeaf, getNodeId, RemoteDiagnosticsNode.core, NodeCore.empty]

/-! ## C8: toggling expansion twice restores the expansion set -/

/-- C8: if the selected node has an identity and the node selected after
the first `toggle_expand` has the same identity (the same node is
selected both times), then two successive `toggle_expand` calls restore
the expansion set. -/
theorem toggle_expand_twice (st : AppState)
    (n n2 : RemoteDiagnosticsNode) (id : String)
    (h1 : st.get_selected_node = some n)
    (hid1 : getNodeId n = some id)
    (h2 : (st.toggle_expand).get_selected_node = some n2)
    (hid2 : getNodeId n2 = some id) :
    ((st.toggle_expand).toggle_expand).expanded_ids = st.expanded_ids := by
  by_cases hmem : id ∈ st.expanded_ids
  · have hst1 : st.toggle_expand =
        { st with expanded_ids := st.expanded_ids.erase id } := by
      simp only [AppState.toggle_expand, h1, hid1]
      rw [if_pos hmem]
    have hnot : id ∉ st.expanded_ids.erase id := Finset.not_mem_erase id _
    rw [hst1] at h2 ⊢
    simp only [AppState.toggle_expand, h2, hid2]
    rw [if_neg (by simpa using hnot)]
    simpa using Finset.insert_erase hmem
  · have hst1 : st.toggle_expand =
        { st with expanded_ids := insert id st.expanded_ids } := by
      simp only [AppState.toggle_expand, h1, hid1]
      rw [if_neg hmem]
    have hin : id ∈ insert id st.expanded_ids := Finset.mem_insert_self id _
    rw [hst1] at h2 ⊢
    simp only [AppState.toggle_expand, h2, hid2]
    rw [if_pos (by simpa using hin)]
    simpa using Finset.erase_insert hmem

/-- Witness for C8: a two-node tree with the root selected; toggling the
root's expansion twice restores the (initially empty) expansion set. -/
theorem toggle_expand_twice_witness :
    stC6.get_selected_node = some (idNode "r" [idLeaf "x"]) ∧
    (({ stC6 with expanded_ids := ∅ }).toggle_expand).toggle_expand.expanded_ids =
      (∅ : Finset String) := by
  have hsel : ∀ e : Finset String,
      (mkState (some (idNode "r" [idLeaf "x"])) 0 e).get_selected_node =
        some (idNode "r" [idLeaf "x"]) := by
    intro e
    simp [AppState.get_selected_node, mkState, findNodeAtIndex, idNode, idLeaf]
  constructor
  · exact hsel _
  · have hbase : ({ stC6 with expanded_ids := ∅ } : AppState) =
        mkState (some (idNode "r" [idLeaf "x"])) 0 ∅ := by
      simp [stC6, mkState]
    rw [hbase]
    have h1 := hsel ∅
    have hid : getNodeId (idNode "r" [idLeaf "x"]) = some "r" := by
      simp [getNodeId, idNode, RemoteDiagnosticsNode.core, NodeCore.empty]
    have hst1 : (mkState (some (idNode "r" [idLeaf "x"])) 0 ∅).toggle_expand =
        mkState (some (idNode "r" [idLeaf "x"])) 0 {"r"} := by
      simp only [AppState.toggle_expand, h1, hid]
      simp [mkState]
    have h2 : ((mkState (some (idNode "r" [idLeaf "x"])) 0 ∅).toggle_expand).get_selected_node =
        some (idNode "r" [idLeaf "x"]) := by
      simp only [hst1, hsel]
    have := toggle_expand_twice (mkState (some (idNode "r" [idLeaf "x"])) 0 ∅)
      (idNode "r" [idLeaf "x"]) (idNode "r" [idLeaf "x"]) "r" h1 hid h2 hid
    simpa [mkState] using this

/-! ## C10: identity-less nodes have no visible descendants -/

/-- C10: a node with neither `value_id` nor `object_id` contributes
exactly one row to the visible count (its children are never entered);
the index-based lookup on such a node returns the node itself or
nothing, never a descendant; and when the selected node has no identity,
`toggle_expand` and `expand_selected` leave the state unchanged and
`collapse_selected` returns `false` leaving the state unchanged — so an
identity-less node is never inserted into the expansion set. -/
theorem anonymous_nodes_have_no_visible_descendants :
    (∀ (s : Finset String) (n : RemoteDiagnosticsNode),
      getNodeId n = none → countVisible s n = 1) ∧
    (∀ (sel : Nat) (s : Finset String) (n : RemoteDiagnosticsNode) (cur : Nat),
      getNodeId n = none →
      (findNodeAtIndex sel s n cur).1 = if cur = sel then some n else none) ∧
    (∀ (st : AppState) (n : RemoteDiagnosticsNode),
      st.get_selected_node = some n → getNodeId n = none →
      st.toggle_expand = st ∧ st.expand_selected = st ∧
      st.collapse_selected = (false, st)) := by
  refine ⟨?_, ?_, ?_⟩
  · intro s n hid
    cases n with
    | mk core ch p =>
      rw [countVisible_mk, hid]
      cases ch <;> simp
  · intro sel s n cur hid
    cases n with
    | mk core ch p =>
      rw [findNodeAtIndex.eq_def]
      by_cases hc : cur = sel
      · simp [hc]
      · simp [hc, hid]
  · intro st n hsel hid
    refine ⟨?_, ?_, ?_⟩
    · simp only [AppState.toggle_expand, hsel, hid]
    · have hids : collectSmartExpandIds n 5 = [] := by
        rw [collectSmartExpandIds.eq_def]
        simp [hid]
      simp only [AppState.expand_selected, hsel, hids, List.foldl_nil]
    · simp only [AppState.collapse_selected, hsel, hid]

/-- Witness for C10: an identity-less root with an identified child. -/
theorem anonymous_nodes_witness :
    getNodeId (anonNode [idLeaf "x"]) = none ∧
    countVisible {"x"} (anonNode [idLeaf "x"]) = 1 ∧
    (mkState (some (anonNode [idLeaf "x"])) 0 {"x"}).get_selected_node =
      some (anonNode [idLeaf "x"]) ∧
    (mkState (some (anonNode [idLeaf "x"])) 0 {"x"}).toggle_expand =
      mkState (some (anonNode [idLeaf "x"])) 0 {"x"} := by
  have hid : getNodeId (anonNode [idLeaf "x"]) = none := by
    simp [getNodeId, anonNode, RemoteDiagnosticsNode.core, NodeCore.empty]
  have hsel : (mkState (some (anonNode [idLeaf "x"])) 0 {"x"}).get_selected_node =
      some (anonNode [idLeaf "x"]) := by
    simp [AppState.get_selected_node, mkState, findNodeAtIndex, anonNode, idLeaf]
  refine ⟨hid, ?_, hsel, ?_⟩
  · exact anonymous_nodes_have_no_visible_descendants.1 {"x"} _ hid
  · exact ((anonymous_nodes_have_no_visible_descendants.2.2 _ _ hsel hid).1)

/-! ## C2: extension response unwrapping -/

/-- The wrapped response of spec scenario S2. -/
def exWrapped : Json :=
  .obj [("type", .str "_extensionType"),
        ("result", .obj [("description", .str "App"), ("children", .arr [])])]

/-- The bare response of spec scenario S2. -/
def exBare : Json :=
  .obj [("description", .str "App"), ("children", .arr [])]

/-- The node both responses decode to. -/
def exNode : RemoteDiagnosticsNode :=
  .mk { NodeCore.empty with description := some "App" } (some []) none

/-- C2: the node JSON is taken from `response.result` exactly when
`response.type == "_extensionType"` and a `result` key exists, and from
the response itself otherwise; the wrapped and the bare S2 responses
decode to identical nodes with description `"App"` and an empty child
list. -/
theorem extension_unwrapping :
    (∀ j : Json,
      selectNodeJson j =
        if (jsonGet j "type").bind Json.asStr = some "_extensionType" ∧
           (jsonGet j "result").isSome = true
        then (jsonGet j "result").getD j
        else j) ∧
    decodeExtensionResponse exWrapped = .ok exNode ∧
    decodeExtensionResponse exBare = .ok exNode ∧
    exNode.core.description = some "App" ∧ exNode.children = some [] := by
  refine ⟨?_, rfl, rfl, rfl, rfl⟩
  intro j
  by_cases ht : (jsonGet j "type").bind Json.asStr = some "_extensionType"
  · cases hr : jsonGet j "result" with
    | some r =>
      rw [selectNodeJson, if_pos ht, hr]
      rw [if_pos ⟨ht, by simp [hr]⟩]
    | none =>
      rw [selectNodeJson, if_pos ht, hr]
      rw [if_neg (by simp [hr])]
      rfl
  · rw [selectNodeJson, if_neg ht]
    rw [if_neg (by rintro ⟨h1, _⟩; exact ht h1)]

/-! ## C3: URI discovery and publication -/

/-- The stdout line of spec scenario S1. -/
def obsLine : String :=
  "Observatory listening on 127.0.0.1:1234, available at: http://127.0.0.1:1234/abcDEF=/"

theorem daemonStepLine_obsLine :
    daemonStepLine obsLine = some "ws://127.0.0.1:1234/abcDEF=/" := by
  simp [daemonStepLine, trimList, captureUriList, dropLit, matchUriAt,
    isUriHostChar, replaceFromList, obsLine]

/-- C3 counterexample: the stdout loop has no "already published" flag,
so a second matching line produces a second send on the URI channel —
the driver does not publish exactly once on the first match only. -/
theorem daemon_publishes_on_every_match :
    daemonRun [obsLine, obsLine] =
      ["ws://127.0.0.1:1234/abcDEF=/", "ws://127.0.0.1:1234/abcDEF=/"] ∧
    ¬ (daemonRun [obsLine, obsLine]).length = 1 := by
  have h := daemonStepLine_obsLine
  constructor
  · simp [daemonRun, h]
  · simp [daemonRun, h]

/-- C3 amended: the driver sends one rewritten URI per matching stdout
line (`k` matching lines produce `k` sends, not exactly one); each send
is the captured group with `http://` replaced by `ws://`; for the S1
line the sent string is exactly `ws://127.0.0.1:1234/abcDEF=/`; and the
orchestrator, which performs a single receive, obtains the first sent
URI. -/
theorem daemon_uri_publication :
    (∀ lines : List String,
      (daemonRun lines).length =
        lines.countP (fun l => (daemonStepLine l).isSome)) ∧
    daemonRun [obsLine] = ["ws://127.0.0.1:1234/abcDEF=/"] ∧
    orchestratorReceivedUri [obsLine, obsLine] =
      some "ws://127.0.0.1:1234/abcDEF=/" := by
  refine ⟨?_, ?_, ?_⟩
  · intro lines
    induction lines with
    | nil => simp [daemonRun]
    | cons l rest ih =>
      rw [daemonRun] at ih ⊢
      cases h : daemonStepLine l <;>
        simp [List.filterMap_cons, List.countP_cons, h, ih]
  · simp [daemonRun, daemonStepLine_obsLine]
  · simp [orchestratorReceivedUri, daemonRun, daemonStepLine_obsLine]

/-! ## C5: selection preservation across a tree refresh -/

/-- An identity-less childless node. -/
def anonLeaf : RemoteDiagnosticsNode := .mk NodeCore.empty none none

/-- Old tree: root `r` with one child `t`; `t` (visible index 1) is
selected. -/
def stC5old : AppState := mkState (some (idNode "r" [idLeaf "t"])) 1 {"r"}

/-- New tree: root `r` whose children are an identity-less node followed
by `t`.  `t` occurs in the new tree, at visible index 2 of the new
flattened view. -/
def rC5new : RemoteDiagnosticsNode := idNode "r" [anonLeaf, idLeaf "t"]

/-- C5 (code bug, evaluated at the failing input): before the refresh the
selected identity is `t`; after `set_root_node rC5new` the identity `t`
occurs in the new tree at visible index 2 (with all its ancestors
expanded), yet `selected_index` is set to 1, and the node at visible
index 1 of the new flattened view is the identity-less sibling — not the
node with identity `t`.  `find_visible_index_recursive` does not advance
its counter over identity-less nodes, while the flattened view counts
every visible node. -/
theorem set_root_node_selection_miss :
    stC5old.get_selected_node.bind getNodeId = some "t" ∧
    (stC5old.set_root_node rC5new).selected_index = 1 ∧
    (stC5old.set_root_node rC5new).get_selected_node = some anonLeaf ∧
    getNodeId anonLeaf = none ∧
    ({ stC5old.set_root_node rC5new with
        selected_index := 2 } : AppState).get_selected_node =
      some (idLeaf "t") ∧
    "r" ∈ (stC5old.set_root_node rC5new).expanded_ids := by
  refine ⟨rfl, rfl, rfl, rfl, rfl, by decide⟩

/-! ## C1: request-id uniqueness and at-most-once delivery -/

/-- Invariant of the driver loop: assigned ids are strictly increasing
and bounded by the current counter, pending ids are distinct and bounded
by the counter, delivered ids are distinct, bounded by the counter, and
no longer pending. -/
def DriverInv (s : DriverState) : Prop :=
  s.assigned.Pairwise (· < ·) ∧
  (∀ a ∈ s.assigned, a ≤ s.requestId) ∧
  s.pending.Nodup ∧
  (∀ i ∈ s.pending, i ≤ s.requestId) ∧
  s.delivered.Nodup ∧
  (∀ i ∈ s.delivered, i ≤ s.requestId ∧ i ∉ s.pending)

theorem driverInv_init : DriverInv DriverState.init := by
  refine ⟨?_, ?_, ?_, ?_, ?_, ?_⟩ <;> simp [DriverState.init]

theorem driverInv_fold (ins : List DriverInput) :
    ∀ s : DriverState, DriverInv s →
      s.requestId + requestCount ins < U64MOD →
      DriverInv (ins.foldl driverStep s) := by
  induction ins with
  | nil => intro s hs _; simpa using hs
  | cons i rest ih =>
    intro s hs hb
    rw [List.foldl_cons]
    obtain ⟨ha1, ha2, hp1, hp2, hd1, hd2⟩ := hs
    cases i with
    | request sendOk =>
      have hcount : requestCount (DriverInput.request sendOk :: rest) =
          requestCount rest + 1 := by
        simp [requestCount, List.countP_cons]
      rw [hcount] at hb
      have hrid : (s.requestId + 1) % U64MOD = s.requestId + 1 :=
        Nat.mod_eq_of_lt (by omega)
      have hnotp : s.requestId + 1 ∉ s.pending := fun hmem =>
        absurd (hp2 _ hmem) (by omega)
      have herase : s.pending.erase (s.requestId + 1) = s.pending :=
        List.erase_of_not_mem hnotp
      have hasg : (s.assigned ++ [s.requestId + 1]).Pairwise (· < ·) := by
        rw [List.pairwise_append]
        refine ⟨ha1, List.pairwise_singleton _ _, ?_⟩
        intro a hmem b hb'
        simp only [List.mem_singleton] at hb'
        subst hb'
        exact Nat.lt_succ_of_le (ha2 a hmem)
      have hasg2 : ∀ a ∈ s.assigned ++ [s.requestId + 1],
          a ≤ s.requestId + 1 := by
        intro a hmem
        rcases List.mem_append.mp hmem with hmem | hmem
        · exact Nat.le_succ_of_le (ha2 a hmem)
        · simp only [List.mem_singleton] at hmem
          omega
      cases sendOk with
      | false =>
        have hstep : driverStep s (DriverInput.request false) =
            { requestId := s.requestId + 1, pending := s.pending,
              assigned := s.assigned ++ [s.requestId + 1],
              delivered := s.delivered } := by
          simp [driverStep, hrid, List.erase_cons_head, herase]
        rw [hstep]
        apply ih
        · refine ⟨hasg, hasg2, hp1, ?_, hd1, ?_⟩
          · simp only []
            intro i hmem
            exact Nat.le_succ_of_le (hp2 _ hmem)
          · simp only []
            intro i hmem
            obtain ⟨hle, hnp⟩ := hd2 i hmem
            exact ⟨Nat.le_succ_of_le hle, hnp⟩
        · simp only []
          omega
      | true =>
        have hstep : driverStep s (DriverInput.request true) =
            { requestId := s.requestId + 1,
              pending := (s.requestId + 1) :: s.pending,
              assigned := s.assigned ++ [s.requestId + 1],
              delivered := s.delivered } := by
          simp only [driverStep, hrid, herase, if_true]
        rw [hstep]
        apply ih
        · refine ⟨hasg, hasg2, ?_, ?_, hd1, ?_⟩
          · exact List.nodup_cons.mpr ⟨hnotp, hp1⟩
          · simp only []
            intro i hmem
            rcases List.mem_cons.mp hmem with hmem | hmem
            · omega
            · exact Nat.le_succ_of_le (hp2 _ hmem)
          · simp only []
            intro i hmem
            obtain ⟨hle, hnp⟩ := hd2 i hmem
            refine ⟨Nat.le_succ_of_le hle, ?_⟩
            intro hc
            rcases List.mem_cons.mp hc with hc | hc
            · omega
            · exact hnp hc
        · simp only []
          omega
    | frameResponse id =>
      have hcount : requestCount (DriverInput.frameResponse id :: rest) =
          requestCount rest := by
        simp [requestCount, List.countP_cons]
      rw [hcount] at hb
      by_cases hmem : id ∈ s.pending
      · have hidnd : id ∉ s.delivered := fun hd =>
          absurd hmem (hd2 id hd).2
        have hstep : driverStep s (DriverInput.frameResponse id) =
            { requestId := s.requestId, pending := s.pending.erase id,
              assigned := s.assigned,
              delivered := s.delivered ++ [id] } := by
          simp only [driverStep, if_pos hmem]
        rw [hstep]
        apply ih
        · refine ⟨ha1, ha2, hp1.erase id, ?_, ?_, ?_⟩
          · simp only []
            intro i hi
            exact hp2 i (List.mem_of_mem_erase hi)
          · rw [List.nodup_append]
            refine ⟨hd1, List.nodup_singleton _, ?_⟩
            intro a ha hb'
            simp only [List.mem_singleton] at hb'
            subst hb'
            exact hidnd ha
          · simp only []
            intro i hi
            rcases List.mem_append.mp hi with hi | hi
            · obtain ⟨hle, hnp⟩ := hd2 i hi
              exact ⟨hle, fun hc => hnp (List.mem_of_mem_erase hc)⟩
            · simp only [List.mem_singleton] at hi
              subst hi
              refine ⟨hp2 _ hmem, ?_⟩
              intro hc
              exact absurd ((List.Nodup.mem_erase_iff hp1).mp hc).1 (by simp)
        · simp only []
          omega
      · have hstep : driverStep s (DriverInput.frameResponse id) = s := by
          simp only [driverStep, if_neg hmem]
        rw [hstep]
        exact ih s ⟨ha1, ha2, hp1, hp2, hd1, hd2⟩ hb
    | frameOther =>
      have hcount : requestCount (DriverInput.frameOther :: rest) =
          requestCount rest := by
        simp [requestCount, List.countP_cons]
      rw [hcount] at hb
      have hstep : driverStep s DriverInput.frameOther = s := rfl
      rw [hstep]
      exact ih s ⟨ha1, ha2, hp1, hp2, hd1, hd2⟩ hb

/-- C1: over any driver trace with fewer than `2^64` requests, the
assigned request ids are strictly increasing (each id is strictly
greater than every id assigned before it — ids are never reused), and
the trace of response deliveries contains each id at most once: after a
response is delivered its pending entry is removed, so a second frame
with the same id is delivered to no one. -/
theorem driver_ids_unique (ins : List DriverInput)
    (h : requestCount ins < U64MOD) :
    (driverRun ins).assigned.Pairwise (· < ·) ∧
    (driverRun ins).delivered.Nodup := by
  have hinv := driverInv_fold ins DriverState.init driverInv_init
    (by simpa [DriverState.init] using h)
  exact ⟨hinv.1, hinv.2.2.2.2.1⟩

/-- Witness for C1: a concrete trace with two requests, a delivered
response and a duplicate frame for the same id. -/
theorem driver_ids_unique_witness :
    requestCount [DriverInput.request true, DriverInput.frameResponse 1,
      DriverInput.frameResponse 1, DriverInput.request true,
      DriverInput.frameOther] < U64MOD ∧
    (driverRun [DriverInput.request true, DriverInput.frameResponse 1,
      DriverInput.frameResponse 1, DriverInput.request true,
      DriverInput.frameOther]).assigned.Pairwise (· < ·) ∧
    (driverRun [DriverInput.request true, DriverInput.frameResponse 1,
      DriverInput.frameResponse 1, DriverInput.request true,
      DriverInput.frameOther]).delivered.Nodup := by
  refine ⟨by decide, ?_⟩
  exact driver_ids_unique _ (by decide)

/-! ## C4: debounced auto-reload -/

theorem dbStep_quiet_none (auto : Bool) (t : Nat) :
    dbStep auto none t false = (none, none) := rfl

theorem dbStep_quiet_armed (auto : Bool) (t d : Nat) (h : ¬ d ≤ t) :
    dbStep auto (some d) t false = (some d, none) := by
  simp [dbStep, h]

theorem dbStep_quiet_fire (auto : Bool) (t d : Nat) (h : d ≤ t) :
    dbStep auto (some d) t false =
      (none, if auto then some (t, "r") else none) := by
  simp [dbStep, h]

theorem dbStep_pulse (auto : Bool) (st : Option Nat) (t : Nat) :
    dbStep auto st t true = (some (t + 500), none) := by
  simp [dbStep]

theorem dbRunAux_none_empty (auto : Bool) :
    ∀ (fuel t : Nat), dbRunAux auto none t [] fuel = (none, []) := by
  intro fuel
  induction fuel with
  | zero => intro t; rfl
  | succ f ih =>
    intro t
    simp only [dbRunAux, dbStep_quiet_none]
    simpa using ih (t + 1)

/-- With the deadline armed, no pending pulses and the deadline inside
the remaining window, the timer fires exactly once — at the deadline —
when auto-reload is on (and never again: the state ends disarmed). -/
theorem dbRunAux_fire_empty (auto : Bool) :
    ∀ (fuel t d : Nat), t ≤ d → d < t + fuel →
      dbRunAux auto (some d) t [] fuel =
        (none, if auto then [(d, "r")] else []) := by
  intro fuel
  induction fuel with
  | zero => intro t d _ h2; omega
  | succ f ih =>
    intro t d h1 h2
    by_cases hfire : d ≤ t
    · have hdt : d = t := by omega
      subst hdt
      simp only [dbRunAux, dbStep_quiet_fire auto d d (le_refl d)]
      rw [dbRunAux_none_empty]
      cases auto <;> simp
    · simp only [dbRunAux, dbStep_quiet_armed auto t d hfire]
      rw [ih (t + 1) d (by omega) (by omega)]
      simp

/-- Ticks strictly before the next pending pulse neither fire nor change
the state: the run can be advanced to the pulse's own tick.  The state
is either disarmed or armed with a deadline not earlier than the
pulse. -/
theorem dbRunAux_skip (auto : Bool) :
    ∀ (fuel t q : Nat) (rest : List Nat) (st : Option Nat),
      t ≤ q → q - t ≤ fuel →
      (st = none ∨ ∃ d, st = some d ∧ q ≤ d) →
      dbRunAux auto st t (q :: rest) fuel =
        dbRunAux auto st q (q :: rest) (fuel - (q - t)) := by
  intro fuel
  induction fuel with
  | zero =>
    intro t q rest st h1 h2 _
    have ht : t = q := by omega
    subst ht
    rw [Nat.sub_self, Nat.zero_sub]
  | succ f ih =>
    intro t q rest st h1 h2 hst
    by_cases htq : t = q
    · subst htq
      rw [Nat.sub_self, Nat.sub_zero]
    · have hlt : t < q := by omega
      have hne : ¬ q = t := by omega
      have hstep : dbStep auto st t false = (st, none) := by
        rcases hst with hst | ⟨d, hst, hd⟩
        · subst hst; rfl
        · subst hst
          exact dbStep_quiet_armed auto t d (by omega)
      simp only [dbRunAux, if_neg hne, hstep]
      rw [ih (t + 1) q rest st (by omega) (by omega) hst]
      have heq : f - (q - (t + 1)) = f + 1 - (q - t) := by omega
      rw [heq]
      simp

/-- In a gap-sorted pulse chain the last pulse is not earlier than the
first. -/
theorem chain_last_ge :
    ∀ (rest : List Nat) (p L : Nat),
      List.Chain' (fun a b => a < b ∧ b < a + 500) (p :: rest) →
      (p :: rest).getLast? = some L → p ≤ L := by
  intro rest
  induction rest with
  | nil =>
    intro p L _ hlast
    simp at hlast
    omega
  | cons q rest' ih =>
    intro p L hchain hlast
    rw [List.chain'_cons] at hchain
    rw [List.getLast?_cons_cons] at hlast
    have := ih q L hchain.2 hlast
    omega

/-- Running from the first pending pulse (with any prior deadline state,
since the pulse re-arms the timer): if the pulses are strictly
increasing with gaps under 500 and the window extends past
`last + 500`, the command trace is exactly one `r` at `last + 500`
when auto-reload is on, and empty otherwise; the deadline ends
disarmed. -/
theorem dbRunAux_pulses (auto : Bool) :
    ∀ (rest : List Nat) (p L : Nat) (st : Option Nat) (fuel : Nat),
      List.Chain' (fun a b => a < b ∧ b < a + 500) (p :: rest) →
      (p :: rest).getLast? = some L →
      L + 500 < p + fuel →
      dbRunAux auto st p (p :: rest) fuel =
        (none, if auto then [(L + 500, "r")] else []) := by
  intro rest
  induction rest with
  | nil =>
    intro p L st fuel _ hlast hfuel
    have hL : L = p := by simp at hlast; omega
    subst hL
    cases fuel with
    | zero => omega
    | succ f =>
      simp only [dbRunAux, eq_self_iff_true, if_true, dbStep_pulse]
      rw [dbRunAux_fire_empty auto f (L + 1) (L + 500) (by omega) (by omega)]
      simp
  | cons q rest' ih =>
    intro p L st fuel hchain hlast hfuel
    rw [List.chain'_cons] at hchain
    obtain ⟨⟨hpq, hgap⟩, hchain'⟩ := hchain
    have hlast' : (q :: rest').getLast? = some L := by
      rwa [List.getLast?_cons_cons] at hlast
    have hqL : q ≤ L := chain_last_ge rest' q L hchain' hlast'
    cases fuel with
    | zero => omega
    | succ f =>
      simp only [dbRunAux, eq_self_iff_true, if_true, dbStep_pulse]
      rw [dbRunAux_skip auto f (p + 1) q rest' (some (p + 500)) (by omega)
        (by omega) (Or.inr ⟨p + 500, rfl, by omega⟩)]
      rw [ih q L (some (p + 500)) (f - (q - (p + 1))) hchain' hlast'
        (by omega)]
      simp

/-- C4: model of the debounce state machine of the main loop at
millisecond-tick granularity, with pulses at the strictly increasing
times `p :: rest` (consecutive gaps under 500 ms), no later pulses, and
a window extending past `last + 500`: with auto-reload on, exactly one
reload command `"r"` is produced, at tick `last + 500` (within 500 ms
of the last pulse), and the deadline ends disarmed (`none`), so no
further command is produced for any longer window; with auto-reload
off, no command is produced (the deadline is still disarmed). -/
theorem debounce_exactly_once (autoReload : Bool) (p : Nat)
    (rest : List Nat) (L ticks : Nat)
    (hchain : List.Chain' (fun a b => a < b ∧ b < a + 500) (p :: rest))
    (hlast : (p :: rest).getLast? = some L)
    (hticks : L + 500 < ticks) :
    dbRun autoReload (p :: rest) ticks =
      (none, if autoReload then [(L + 500, "r")] else []) := by
  have hpL : p ≤ L := chain_last_ge rest p L hchain hlast
  rw [dbRun]
  rw [dbRunAux_skip autoReload ticks 0 p rest none (by omega) (by omega)
    (Or.inl rfl)]
  have hz : p - 0 = p := by omega
  rw [hz]
  exact dbRunAux_pulses autoReload rest p L none (ticks - p) hchain hlast
    (by omega)

/-- Witness for C4, spec scenario S4: pulses at 0, 100 and 200 ms with
auto-reload on; by 800 ms exactly one `r` has been produced, at
tick 700. -/
theorem debounce_exactly_once_witness :
    List.Chain' (fun a b => a < b ∧ b < a + 500) [0, 100, 200] ∧
    ([0, 100, 200] : List Nat).getLast? = some 200 ∧
    (200 + 500 < 800) ∧
    dbRun true [0, 100, 200] 800 = (none, [(700, "r")]) ∧
    dbRun false [0, 100, 200] 800 = (none, []) := by
  have hch : List.Chain' (fun a b => a < b ∧ b < a + 500) [0, 100, 200] := by
    simp [List.chain'_cons]
  refine ⟨hch, by decide, by decide, ?_, ?_⟩
  · have h := debounce_exactly_once true 0 [100, 200] 200 800 hch
      (by decide) (by decide)
    simpa using h
  · have h := debounce_exactly_once false 0 [100, 200] 200 800 hch
      (by decide) (by decide)
    simpa using h

end FlutterTui
